import Mathlib

/-!
Shallow embedding of the Audible provider adapter
(`src/apps/backend/src/providers/audible.rs`): the locale resolver, the
upstream query builder, the response normalizer
(`audible_response_to_search_response`), the search narrowing to
`MediaSearchItem`, and the pagination / result assembly of `search`.

Conventions of the embedding:
- Rust `i32` values are modelled as unbounded `Int` (the arithmetic here is
  pagination bookkeeping at spec level; no wrap-around semantics is relied on).
- Rust `Option<T>` is `Option T`, `Vec<T>` is `List T`.
- A Rust panic (`unreachable!()`) is modelled as `Option.none` of the
  surrounding computation, distinguishing it from recoverable `Result` errors,
  which do not occur in the pure fragment modelled here.
- Helpers `convert_date_to_year` / `convert_string_to_date` and the constant
  `PAGE_LIMIT` live outside the visible source file; they are modelled from the
  spec where noted.
-/

namespace Audible

/-- `NamedObject` (from `utils`, outside the visible file): a record carrying a
display name, as used by `authors`, `narrators` and `ladder` nodes. -/
structure NamedObject where
  name : String
deriving DecidableEq, Repr

/-- `AudiblePoster`: the single requested image resolution field
(serde-renamed "2400"), optional. -/
structure AudiblePoster where
  image : Option String
deriving DecidableEq, Repr

/-- `AudibleCategoryLadderCollection`: one category-ladder group with its
nested list of labeled nodes. -/
structure AudibleCategoryLadderCollection where
  ladder : List NamedObject
deriving DecidableEq, Repr

/-- `AudibleItem`: the provider-native item shape. Fields declared `Option`
in the source are `Option` here; `asin`, `title` and `product_images` are
required (non-`Option`) in the source. -/
structure AudibleItem where
  asin : String
  title : String
  authors : Option (List NamedObject)
  narrators : Option (List NamedObject)
  product_images : AudiblePoster
  merchandising_summary : Option String
  publisher_summary : Option String
  release_date : Option String
  runtime_length_min : Option Int
  category_ladders : Option (List AudibleCategoryLadderCollection)
deriving DecidableEq, Repr

/-- Raw (pre-deserialization) view of `AudibleItem`: every field optional, as
in an arbitrary JSON object. Serde's derived deserializer for `AudibleItem`
fails when a field not declared `Option` is absent. -/
structure AudibleItemRaw where
  asin : Option String
  title : Option String
  authors : Option (List NamedObject)
  narrators : Option (List NamedObject)
  product_images : Option AudiblePoster
  merchandising_summary : Option String
  publisher_summary : Option String
  release_date : Option String
  runtime_length_min : Option Int
  category_ladders : Option (List AudibleCategoryLadderCollection)
deriving DecidableEq, Repr

/-- Serde deserialization of `AudibleItem`: the fields the source declares
without `Option` (`asin`, `title`, `product_images`) are required; absence of
any of them fails deserialization of the item. -/
def parseAudibleItem (r : AudibleItemRaw) : Option AudibleItem :=
  match r.asin, r.title, r.product_images with
  | some asin, some title, some product_images =>
      some { asin := asin, title := title, authors := r.authors,
             narrators := r.narrators, product_images := product_images,
             merchandising_summary := r.merchandising_summary,
             publisher_summary := r.publisher_summary,
             release_date := r.release_date,
             runtime_length_min := r.runtime_length_min,
             category_ladders := r.category_ladders }
  | _, _, _ => none

/-- `MetadataLot` (from `migrator`): media-kind tag; only the variant used by
this adapter is relevant, the others are listed for shape. -/
inductive MetadataLot where
  | AudioBook
  | Book
  | Movie
  | Show
deriving DecidableEq, Repr

/-- `MetadataSource` (from `migrator`): provider tag. -/
inductive MetadataSource where
  | Audible
  | Other
deriving DecidableEq, Repr

/-- `MetadataImageLot` (from `migrator`). -/
inductive MetadataImageLot where
  | Poster
  | Backdrop
deriving DecidableEq, Repr

/-- `MetadataImageUrl` (from `miscellaneous`): an image location is either a
direct remote URL or a content-addressed (`S3`) key. -/
inductive MetadataImageUrl where
  | S3 (u : String)
  | Url (u : String)
deriving DecidableEq, Repr

/-- `MetadataImage`. -/
structure MetadataImage where
  url : MetadataImageUrl
  lot : MetadataImageLot
deriving DecidableEq, Repr

/-- `MetadataCreator`. -/
structure MetadataCreator where
  name : String
  role : String
  image_urls : List String
deriving DecidableEq, Repr

/-- Calendar date, modelling chrono's `NaiveDate` as used by
`convert_string_to_date`. -/
structure NaiveDate where
  year : Int
  month : Nat
  day : Nat
deriving DecidableEq, Repr

/-- `AudioBookSpecifics`. -/
structure AudioBookSpecifics where
  runtime : Option Int
deriving DecidableEq, Repr

/-- `MediaSpecifics`: tagged variant of type-specific fields. -/
inductive MediaSpecifics where
  | AudioBook (s : AudioBookSpecifics)
deriving DecidableEq, Repr

/-- `MediaDetails`: the canonical media record. -/
structure MediaDetails where
  identifier : String
  lot : MetadataLot
  source : MetadataSource
  title : String
  description : Option String
  creators : List MetadataCreator
  genres : List String
  publish_year : Option Int
  publish_date : Option NaiveDate
  specifics : MediaSpecifics
  images : List MetadataImage
deriving DecidableEq, Repr

/-- `MediaSearchItem`: the lighter projection used in list views. -/
structure MediaSearchItem where
  identifier : String
  lot : MetadataLot
  title : String
  images : List String
  publish_year : Option Int
deriving DecidableEq, Repr

/-- `MediaSearchResults`: the search-result envelope. -/
structure MediaSearchResults where
  total : Int
  items : List MediaSearchItem
  next_page : Option Int
deriving DecidableEq, Repr

/-- `LOCALES`: the adapter's declared supported-locale set
(`pub static LOCALES`). -/
def LOCALES : List String := ["au", "ca", "de", "es", "fr", "in", "it", "jp", "gb", "us"]

/-- `url_from_locale`: the static locale → base-endpoint table. The `_ =>
unreachable!()` arm of the Rust `match` (a panic) is modelled as `none`. -/
def url_from_locale (locale : String) : Option String :=
  let suffix : Option String :=
    match locale with
    | "us" => some "com"
    | "ca" => some "ca"
    | "uk" => some "co.uk"
    | "au" => some "co.au"
    | "fr" => some "fr"
    | "de" => some "de"
    | "jp" => some "co.jp"
    | "it" => some "it"
    | "in" => some "co.in"
    | "es" => some "es"
    | _ => none
  suffix.map (fun s => "https://api.audible." ++ s ++ "/1.0/catalog/products/")

/-- Modelled from the spec: `PAGE_LIMIT`, the process-wide page-size constant
(from `miscellaneous`, outside the visible file); the spec's pagination
scenario uses page size 20. The pagination theorems do not depend on the
value. -/
def PAGE_LIMIT : Int := 20

/-- Digit test on characters (ASCII `0`..`9`). -/
def isDigitChar (c : Char) : Bool := '0' ≤ c && c ≤ '9'

/-- Numeric value of a digit string. -/
def natOfDigits (l : List Char) : Nat :=
  l.foldl (fun acc c => acc * 10 + (c.toNat - '0'.toNat)) 0

/-- Maximal digit runs of a character list (helper for year extraction). -/
def digitRuns : List Char → List (List Char)
  | [] => []
  | c :: cs =>
      let rest := digitRuns cs
      if isDigitChar c then
        match cs with
        | c2 :: _ =>
            if isDigitChar c2 then
              match rest with
              | r :: rs => (c :: r) :: rs
              | [] => [[c]]
            else [c] :: rest
        | [] => [[c]]
      else rest

/-- Modelled from the spec: `convert_date_to_year` (from `utils`, outside the
visible file) derives `publishYear` by extracting a 4-digit year token from
the raw date string, degrading to `none` on malformed input, never failing. -/
def convert_date_to_year (s : String) : Option Int :=
  match (digitRuns s.toList).find? (fun r => r.length == 4) with
  | some r => some (natOfDigits r : Int)
  | none => none

/-- Modelled from the spec: `convert_string_to_date` (from `utils`, outside
the visible file) derives `publishDate` by full calendar-date parsing of a
`YYYY-MM-DD` string, degrading to `none` on malformed input, never failing. -/
def convert_string_to_date (s : String) : Option NaiveDate :=
  match s.toList.splitOn '-' with
  | [y, m, d] =>
      if y ≠ [] && y.all isDigitChar && m ≠ [] && m.all isDigitChar &&
         d ≠ [] && d.all isDigitChar then
        let mn := natOfDigits m
        let dn := natOfDigits d
        if 1 ≤ mn && mn ≤ 12 && 1 ≤ dn && dn ≤ 31 then
          some { year := (natOfDigits y : Int), month := mn, day := dn }
        else none
      else none
  | _ => none

/-- Itertools' `unique` with an accumulator of already-seen values: keeps the
first occurrence of each value, dropping later duplicates. -/
def uniqueAux {α : Type} [DecidableEq α] (seen : List α) : List α → List α
  | [] => []
  | x :: xs => if x ∈ seen then uniqueAux seen xs else x :: uniqueAux (x :: seen) xs

/-- Itertools' `unique` adapter: deduplicate by value equality, keeping the
first occurrence of each value. -/
def uniqueList {α : Type} [DecidableEq α] (l : List α) : List α := uniqueAux [] l

/-- `audible_response_to_search_response`: the response normalizer, a direct
translation of the Rust function. -/
def audible_response_to_search_response (item : AudibleItem) : MediaDetails :=
  let images := (item.product_images.image.map (fun a =>
    ({ url := MetadataImageUrl.Url a, lot := MetadataImageLot.Poster } : MetadataImage))).toList
  let release_date := item.release_date.getD ""
  let creators :=
    (item.authors.getD []).map (fun a =>
      ({ name := a.name, role := "Author", image_urls := [] } : MetadataCreator)) ++
    (item.narrators.getD []).map (fun a =>
      ({ name := a.name, role := "Narrator", image_urls := [] } : MetadataCreator))
  let description := item.publisher_summary.or item.merchandising_summary
  { identifier := item.asin
    lot := MetadataLot.AudioBook
    source := MetadataSource.Audible
    title := item.title
    description := description
    creators := creators
    genres := uniqueList ((item.category_ladders.getD []).flatMap
      (fun c => c.ladder.map (fun l => l.name)))
    publish_year := convert_date_to_year release_date
    publish_date := convert_string_to_date release_date
    specifics := MediaSpecifics.AudioBook { runtime := item.runtime_length_min }
    images := images }

/-- `PrimaryQuery` with its `Default` impl values. -/
structure PrimaryQuery where
  response_groups : String
  image_sizes : String
deriving DecidableEq, Repr

/-- `PrimaryQuery::default()`. -/
def PrimaryQuery.default : PrimaryQuery :=
  { response_groups :=
      "contributors,category_ladders,media,product_attrs,product_extended_attrs"
    image_sizes := "2400" }

/-- `SearchQuery`: the outbound search request parameters. -/
structure SearchQuery where
  title : String
  num_results : Int
  page : Int
  products_sort_by : String
  primary : PrimaryQuery
deriving DecidableEq, Repr

/-- The search query the adapter sends upstream for `search(query, page)`:
`page` defaults to 1 and is translated to the upstream's 0-based page. -/
def buildSearchQuery (query : String) (page : Option Int) : SearchQuery :=
  { title := query
    num_results := PAGE_LIMIT
    page := page.getD 1 - 1
    products_sort_by := "Relevance"
    primary := PrimaryQuery.default }

/-- `AudibleSearchResponse`: the upstream search payload. -/
structure AudibleSearchResponse where
  total_results : Int
  products : List AudibleItem
deriving DecidableEq, Repr

/-- The per-image narrowing inside `search`: a remote URL passes through, a
content-addressed (`S3`) location hits `unreachable!()` (panic, modelled as
`none`). -/
def collectUrls : List MetadataImage → Option (List String)
  | [] => some []
  | i :: rest =>
      match i.url with
      | MetadataImageUrl.S3 _ => none
      | MetadataImageUrl.Url u => (collectUrls rest).map (fun us => u :: us)

/-- Narrowing of a normalized record to a `MediaSearchItem`, as performed in
`search`'s map over products. -/
def searchItemOfDetails (a : MediaDetails) : Option MediaSearchItem :=
  (collectUrls a.images).map (fun imgs =>
    { identifier := a.identifier
      lot := MetadataLot.AudioBook
      title := a.title
      images := imgs
      publish_year := a.publish_year })

/-- Normalize-and-narrow every product of a search response, in order; a
panic in any item's narrowing aborts the whole call. -/
def collectItems : List AudibleItem → Option (List MediaSearchItem)
  | [] => some []
  | d :: rest =>
      match searchItemOfDetails (audible_response_to_search_response d) with
      | none => none
      | some it => (collectItems rest).map (fun its => it :: its)

/-- The pure part of `search(query, page)`, as a function of the upstream
response: normalizes each product, narrows it, and assembles the envelope
with the pagination verdict. `none` models the `unreachable!()` panic. -/
def search (_query : String) (page : Option Int) (resp : AudibleSearchResponse) :
    Option MediaSearchResults :=
  let pageVal := page.getD 1
  match collectItems resp.products with
  | none => none
  | some items =>
      some { total := resp.total_results
             items := items
             next_page :=
               if resp.total_results - pageVal * PAGE_LIMIT > 0 then
                 some (pageVal + 1)
               else none }

/-- A minimal concrete `AudibleItem` with every optional field absent. -/
def itemBare : AudibleItem :=
  { asin := "B002V02KPU"
    title := "The Name of the Wind"
    authors := none
    narrators := none
    product_images := { image := none }
    merchandising_summary := none
    publisher_summary := none
    release_date := none
    runtime_length_min := none
    category_ladders := none }

/-- A raw upstream item whose `asin` field is absent. -/
def rawNoAsin : AudibleItemRaw :=
  { asin := none
    title := some "T"
    authors := none
    narrators := none
    product_images := some { image := none }
    merchandising_summary := none
    publisher_summary := none
    release_date := none
    runtime_length_min := none
    category_ladders := none }

/-- A raw upstream item whose `asin` field is present but empty. -/
def rawEmptyAsin : AudibleItemRaw := { rawNoAsin with asin := some "" }

/-- A raw upstream item with a normal `asin`. -/
def rawWithAsin : AudibleItemRaw := { rawNoAsin with asin := some "B002V02KPU" }

/-- The spec's genre example: category ladders `[[A], [B, A]]`. -/
def itemGenresExample : AudibleItem :=
  { itemBare with
    category_ladders := some
      [ { ladder := [{ name := "A" }] }
      , { ladder := [{ name := "B" }, { name := "A" }] } ] }

/-- A normalized record whose images are all remote URLs. -/
def detailsAllUrl : MediaDetails :=
  { identifier := "id1"
    lot := MetadataLot.AudioBook
    source := MetadataSource.Audible
    title := "T"
    description := none
    creators := []
    genres := []
    publish_year := none
    publish_date := none
    specifics := MediaSpecifics.AudioBook { runtime := none }
    images := [ { url := MetadataImageUrl.Url "https://img/1.jpg", lot := MetadataImageLot.Poster }
              , { url := MetadataImageUrl.Url "https://img/2.jpg", lot := MetadataImageLot.Poster } ] }

/-- A normalized record carrying a content-addressed image. -/
def detailsWithS3 : MediaDetails :=
  { detailsAllUrl with
    images := [ { url := MetadataImageUrl.S3 "img-key", lot := MetadataImageLot.Poster } ] }

end Audible

namespace Audible

theorem mem_uniqueAux {α : Type} [DecidableEq α] (a : α) (l : List α) :
    ∀ seen : List α, a ∈ uniqueAux seen l ↔ a ∈ l ∧ a ∉ seen := by
  induction l with
  | nil => intro seen; simp [uniqueAux]
  | cons x xs ih =>
    intro seen
    by_cases hx : x ∈ seen
    · simp only [uniqueAux, if_pos hx, ih, List.mem_cons]
      constructor
      · exact fun ⟨h, hs⟩ => ⟨Or.inr h, hs⟩
      · rintro ⟨rfl | h, hs⟩
        · exact absurd hx hs
        · exact ⟨h, hs⟩
    · simp only [uniqueAux, if_neg hx, List.mem_cons, ih]
      constructor
      · rintro (rfl | ⟨h, hs⟩)
        · exact ⟨Or.inl rfl, hx⟩
        · exact ⟨Or.inr h, fun hm => hs (Or.inr hm)⟩
      · rintro ⟨rfl | h, hs⟩
        · exact Or.inl rfl
        · by_cases hax : a = x
          · exact Or.inl hax
          · refine Or.inr ⟨h, fun hm => ?_⟩
            rcases hm with h1 | h1
            · exact hax h1
            · exact hs h1

theorem mem_uniqueList {α : Type} [DecidableEq α] (a : α) (l : List α) :
    a ∈ uniqueList l ↔ a ∈ l := by
  rw [uniqueList, mem_uniqueAux]
  simp

theorem nodup_uniqueAux {α : Type} [DecidableEq α] (l : List α) :
    ∀ seen : List α, (uniqueAux seen l).Nodup := by
  induction l with
  | nil => intro seen; simp [uniqueAux]
  | cons x xs ih =>
    intro seen
    by_cases hx : x ∈ seen
    · simpa only [uniqueAux, if_pos hx] using ih seen
    · simp only [uniqueAux, if_neg hx]
      refine List.Pairwise.cons (fun b hb => ?_) (ih (x :: seen))
      have := (mem_uniqueAux b xs (x :: seen)).mp hb
      exact fun hbx => this.2 (hbx ▸ List.mem_cons_self x seen)

theorem nodup_uniqueList {α : Type} [DecidableEq α] (l : List α) :
    (uniqueList l).Nodup := nodup_uniqueAux l []

theorem pairwise_firstIdx_uniqueAux {α : Type} [DecidableEq α] (l : List α) :
    ∀ seen : List α,
      (uniqueAux seen l).Pairwise (fun a b => l.indexOf a < l.indexOf b) := by
  induction l with
  | nil => intro seen; simp [uniqueAux]
  | cons x xs ih =>
    intro seen
    by_cases hx : x ∈ seen
    · simp only [uniqueAux, if_pos hx]
      refine List.Pairwise.imp_of_mem ?_ (ih seen)
      intro a b ha hb hab
      have ha' := (mem_uniqueAux a xs seen).mp ha
      have hb' := (mem_uniqueAux b xs seen).mp hb
      have hxa : x ≠ a := fun h => ha'.2 (h ▸ hx)
      have hxb : x ≠ b := fun h => hb'.2 (h ▸ hx)
      rw [List.indexOf_cons_ne _ hxa, List.indexOf_cons_ne _ hxb]
      omega
    · simp only [uniqueAux, if_neg hx]
      rw [List.pairwise_cons]
      constructor
      · intro b hb
        have hb' := (mem_uniqueAux b xs (x :: seen)).mp hb
        have hxb : x ≠ b := fun h => hb'.2 (h ▸ List.mem_cons_self x seen)
        rw [List.indexOf_cons_self, List.indexOf_cons_ne _ hxb]
        omega
      · refine List.Pairwise.imp_of_mem ?_ (ih (x :: seen))
        intro a b ha hb hab
        have ha' := (mem_uniqueAux a xs (x :: seen)).mp ha
        have hb' := (mem_uniqueAux b xs (x :: seen)).mp hb
        have hxa : x ≠ a := fun h => ha'.2 (h ▸ List.mem_cons_self x seen)
        have hxb : x ≠ b := fun h => hb'.2 (h ▸ List.mem_cons_self x seen)
        rw [List.indexOf_cons_ne _ hxa, List.indexOf_cons_ne _ hxb]
        omega

theorem pairwise_firstIdx_uniqueList {α : Type} [DecidableEq α] (l : List α) :
    (uniqueList l).Pairwise (fun a b => l.indexOf a < l.indexOf b) :=
  pairwise_firstIdx_uniqueAux l []

theorem collectUrls_of_map_url (imgs : List MetadataImage) (l : List String)
    (h : imgs.map MetadataImage.url = l.map MetadataImageUrl.Url) :
    collectUrls imgs = some l := by
  induction imgs generalizing l with
  | nil =>
    cases l with
    | nil => rfl
    | cons u us => simp at h
  | cons i rest ih =>
    cases l with
    | nil => simp at h
    | cons u us =>
      simp only [List.map_cons, List.cons.injEq] at h
      rw [collectUrls, h.1, ih us h.2]
      rfl

theorem collectUrls_s3 (imgs : List MetadataImage) (i : MetadataImage) (u : String)
    (hi : i ∈ imgs) (hu : i.url = MetadataImageUrl.S3 u) :
    collectUrls imgs = none := by
  induction imgs with
  | nil => cases hi
  | cons x rest ih =>
    rcases List.mem_cons.mp hi with rfl | hmem
    · rw [collectUrls, hu]
    · rw [collectUrls]
      cases hx : x.url with
      | S3 _ => rfl
      | Url v => rw [ih hmem]; rfl

end Audible

namespace Audible

/-- Claim C1: for every upstream search response with total count `T` and
requested 1-based page `P` (absent defaults to 1), the returned envelope has
`next_page = some (P + 1)` iff `T - P * PAGE_LIMIT > 0`, and `none`
otherwise. -/
theorem c1_next_page_iff (q : String) (p : Option Int) (resp : AudibleSearchResponse)
    (r : MediaSearchResults) (h : search q p resp = some r) :
    (r.next_page = some (p.getD 1 + 1) ↔ resp.total_results - p.getD 1 * PAGE_LIMIT > 0) ∧
    (¬ resp.total_results - p.getD 1 * PAGE_LIMIT > 0 → r.next_page = none) := by
  unfold search at h
  cases hc : collectItems resp.products with
  | none => rw [hc] at h; simp at h
  | some items =>
    rw [hc] at h
    simp only [Option.some.injEq] at h
    subst h
    by_cases hcond : resp.total_results - p.getD 1 * PAGE_LIMIT > 0
    · constructor
      · simp [hcond]
      · exact fun hn => absurd hcond hn
    · constructor
      · simp [hcond]
      · intro _; simp [hcond]

/-- Witness for C1 at `search "foo" (some 2)` on a response with
`total_results = 45`. -/
theorem c1_next_page_iff_witness :
    search "foo" (some 2) { total_results := 45, products := [] } =
      some { total := 45, items := [], next_page := some 3 } ∧
    (((some 3 : Option Int) = some ((2 : Int) + 1) ↔ (45 : Int) - 2 * PAGE_LIMIT > 0) ∧
     (¬ (45 : Int) - 2 * PAGE_LIMIT > 0 → (some 3 : Option Int) = none)) :=
  ⟨by rfl,
   c1_next_page_iff "foo" (some 2) { total_results := 45, products := [] }
     { total := 45, items := [], next_page := some 3 } (by rfl)⟩

/-- Claim C2 (code bug): `"gb"` is in the declared supported-locale set
`LOCALES`, yet `url_from_locale "gb"` hits the `unreachable!()` panic branch
(modelled `none`); the resolver instead accepts `"uk"`, which `LOCALES` does
not declare. -/
theorem c2_gb_locale_panics :
    "gb" ∈ LOCALES ∧ url_from_locale "gb" = none ∧
    "uk" ∉ LOCALES ∧
    url_from_locale "uk" = some "https://api.audible.co.uk/1.0/catalog/products/" :=
  ⟨by decide, by rfl, by decide, by rfl⟩

end Audible

namespace Audible

/-- Counterexample to claim C3: an upstream item whose ID is present but
empty is accepted (deserializes fine) and normalization produces a record —
with an empty `identifier` — rather than failing. -/
theorem c3_counterexample :
    (parseAudibleItem rawEmptyAsin).map
      (fun i => (audible_response_to_search_response i).identifier) = some "" := by rfl

/-- Claim C3 (amended): a missing upstream ID fails deserialization of the
item, so normalization never sees it; a present upstream ID — the empty
string included — is passed through verbatim as the `identifier`, so
normalization itself never rejects an item for an empty ID. -/
theorem c3_identifier_passthrough (r : AudibleItemRaw) :
    (r.asin = none → parseAudibleItem r = none) ∧
    (∀ i, parseAudibleItem r = some i →
      (audible_response_to_search_response i).identifier = i.asin ∧ r.asin = some i.asin) := by
  constructor
  · intro h
    unfold parseAudibleItem
    rw [h]
  · intro i hi
    unfold parseAudibleItem at hi
    cases ha : r.asin with
    | none => rw [ha] at hi; cases hi
    | some a =>
      cases ht : r.title with
      | none => rw [ha, ht] at hi; cases hi
      | some t =>
        cases hp : r.product_images with
        | none => rw [ha, ht, hp] at hi; cases hi
        | some pi =>
          rw [ha, ht, hp] at hi
          simp only [Option.some.injEq] at hi
          subst hi
          exact ⟨rfl, rfl⟩

/-- Witness for C3's amended statement: `rawNoAsin` fails to deserialize;
`rawWithAsin` deserializes and its `asin` becomes the identifier verbatim. -/
theorem c3_identifier_passthrough_witness :
    (rawNoAsin.asin = none ∧ parseAudibleItem rawNoAsin = none) ∧
    (parseAudibleItem rawWithAsin = some { itemBare with title := "T" } ∧
     ((audible_response_to_search_response { itemBare with title := "T" }).identifier =
        ({ itemBare with title := "T" } : AudibleItem).asin ∧
      rawWithAsin.asin = some ({ itemBare with title := "T" } : AudibleItem).asin)) :=
  ⟨⟨rfl, (c3_identifier_passthrough rawNoAsin).1 rfl⟩,
   ⟨by rfl, (c3_identifier_passthrough rawWithAsin).2 { itemBare with title := "T" } (by rfl)⟩⟩

/-- Claim C4: the normalized description equals the primary summary field
(`publisher_summary`) when present; otherwise it equals the secondary field
(`merchandising_summary`), hence `none` when both are absent; the two are
never concatenated. -/
theorem c4_description_fallback (item : AudibleItem) :
    (audible_response_to_search_response item).description =
      match item.publisher_summary with
      | some s => some s
      | none => item.merchandising_summary := by
  cases h : item.publisher_summary <;>
    simp [audible_response_to_search_response, h, Option.or]

/-- Claim C5: the normalized creators are the author list labeled "Author"
followed by the narrator list labeled "Narrator", in source order; when both
lists are absent, creators is empty and normalization still succeeds. -/
theorem c5_creators_order (item : AudibleItem) :
    (audible_response_to_search_response item).creators =
      (item.authors.getD []).map (fun a =>
        { name := a.name, role := "Author", image_urls := [] }) ++
      (item.narrators.getD []).map (fun a =>
        { name := a.name, role := "Narrator", image_urls := [] }) ∧
    (item.authors = none → item.narrators = none →
      (audible_response_to_search_response item).creators = []) := by
  constructor
  · rfl
  · intro ha hn
    simp [audible_response_to_search_response, ha, hn]

/-- Witness for C5 at `itemBare`, which has neither authors nor narrators. -/
theorem c5_creators_order_witness :
    itemBare.authors = none ∧ itemBare.narrators = none ∧
    (audible_response_to_search_response itemBare).creators = [] :=
  ⟨rfl, rfl, (c5_creators_order itemBare).2 rfl rfl⟩

/-- Claim C6: when the raw release-date string is absent or malformed (the
empty string), normalization still succeeds (it is total) and yields
`publish_year = none` and `publish_date = none`. -/
theorem c6_date_degrades (item : AudibleItem)
    (h : item.release_date = none ∨ item.release_date = some "") :
    (audible_response_to_search_response item).publish_year = none ∧
    (audible_response_to_search_response item).publish_date = none := by
  have hrd : item.release_date.getD "" = "" := by
    rcases h with h | h <;> simp [h]
  constructor <;> simp [audible_response_to_search_response, hrd] <;> rfl

/-- Witness for C6 at `itemBare` (absent release date). -/
theorem c6_date_degrades_witness :
    (itemBare.release_date = none ∨ itemBare.release_date = some "") ∧
    ((audible_response_to_search_response itemBare).publish_year = none ∧
     (audible_response_to_search_response itemBare).publish_date = none) :=
  ⟨Or.inl rfl, c6_date_degrades itemBare (Or.inl rfl)⟩

end Audible

namespace Audible

/-- Claim C7: normalized genres are exactly the names obtained by flattening
every category-ladder group's node list, deduplicated by value equality
(membership is preserved, the output has no duplicates); the spec's example
`[[A], [B, A]]` normalizes to `{A, B}`. -/
theorem c7_genres_dedup :
    (∀ item : AudibleItem,
      (∀ g, g ∈ (audible_response_to_search_response item).genres ↔
        g ∈ (item.category_ladders.getD []).flatMap (fun c => c.ladder.map (fun l => l.name))) ∧
      (audible_response_to_search_response item).genres.Nodup) ∧
    (audible_response_to_search_response itemGenresExample).genres = ["A", "B"] := by
  refine ⟨fun item => ⟨fun g => ?_, ?_⟩, by rfl⟩
  · exact mem_uniqueList g _
  · exact nodup_uniqueList _

/-- Claim C8: in the search narrowing, a content-addressed (`S3`) image hits
`unreachable!()` (an assertion failure, modelled `none`, not a recoverable
error value); when every image carries a remote-URL location, the narrowing
succeeds and its image list is exactly those URL strings in order. -/
theorem c8_search_narrowing (a : MediaDetails) :
    (∀ l : List String, a.images.map MetadataImage.url = l.map MetadataImageUrl.Url →
      searchItemOfDetails a =
        some { identifier := a.identifier
               lot := MetadataLot.AudioBook
               title := a.title
               images := l
               publish_year := a.publish_year }) ∧
    (∀ i ∈ a.images, ∀ u, i.url = MetadataImageUrl.S3 u → searchItemOfDetails a = none) := by
  constructor
  · intro l h
    unfold searchItemOfDetails
    rw [collectUrls_of_map_url a.images l h]
    rfl
  · intro i hi u hu
    unfold searchItemOfDetails
    rw [collectUrls_s3 a.images i u hi hu]
    rfl

/-- Witness for C8: a record with two URL images narrows to exactly those
URLs in order; a record with a content-addressed image panics (`none`). -/
theorem c8_search_narrowing_witness :
    (detailsAllUrl.images.map MetadataImage.url =
      ["https://img/1.jpg", "https://img/2.jpg"].map MetadataImageUrl.Url ∧
     searchItemOfDetails detailsAllUrl =
       some { identifier := "id1"
              lot := MetadataLot.AudioBook
              title := "T"
              images := ["https://img/1.jpg", "https://img/2.jpg"]
              publish_year := none }) ∧
    searchItemOfDetails detailsWithS3 = none :=
  ⟨⟨by rfl, (c8_search_narrowing detailsAllUrl).1 ["https://img/1.jpg", "https://img/2.jpg"] (by rfl)⟩,
   (c8_search_narrowing detailsWithS3).2
     { url := MetadataImageUrl.S3 "img-key", lot := MetadataImageLot.Poster }
     (List.mem_cons_self _ _) "img-key" rfl⟩

/-- Claim C9: the page parameter sent upstream is the 1-based contract page
(defaulting to 1 when absent) minus 1, while the pagination verdict is
computed from the 1-based contract page itself. -/
theorem c9_zero_based_page (q : String) (p : Option Int) :
    (buildSearchQuery q p).page = p.getD 1 - 1 ∧
    (∀ resp r, search q p resp = some r →
      r.next_page = if resp.total_results - p.getD 1 * PAGE_LIMIT > 0
        then some (p.getD 1 + 1) else none) := by
  refine ⟨rfl, fun resp r h => ?_⟩
  unfold search at h
  cases hc : collectItems resp.products with
  | none => rw [hc] at h; simp at h
  | some items =>
    rw [hc] at h
    simp only [Option.some.injEq] at h
    subst h
    rfl

/-- Witness for C9 at `search "q" none` (absent page defaults to 1) on a
response with `total_results = 5`. -/
theorem c9_zero_based_page_witness :
    (buildSearchQuery "q" (none : Option Int)).page = (none : Option Int).getD 1 - 1 ∧
    (search "q" none { total_results := 5, products := [] } =
       some { total := 5, items := [], next_page := none } ∧
     ({ total := 5, items := [], next_page := none } : MediaSearchResults).next_page =
       if (5 : Int) - (none : Option Int).getD 1 * PAGE_LIMIT > 0
         then some ((none : Option Int).getD 1 + 1) else none) :=
  ⟨(c9_zero_based_page "q" none).1,
   by rfl,
   (c9_zero_based_page "q" none).2 { total_results := 5, products := [] }
     { total := 5, items := [], next_page := none } (by rfl)⟩

/-- Claim C10: the deduplicated genres list each distinct flattened name
(membership preserved) in the order of its first occurrence in the flattened
category-ladder traversal: pairwise, earlier output entries have strictly
smaller first-occurrence indices in the flattened list. -/
theorem c10_genres_first_seen (item : AudibleItem) :
    (∀ g, g ∈ (audible_response_to_search_response item).genres ↔
      g ∈ (item.category_ladders.getD []).flatMap (fun c => c.ladder.map (fun l => l.name))) ∧
    (audible_response_to_search_response item).genres.Pairwise (fun a b =>
      ((item.category_ladders.getD []).flatMap
        (fun c => c.ladder.map (fun l => l.name))).indexOf a <
      ((item.category_ladders.getD []).flatMap
        (fun c => c.ladder.map (fun l => l.name))).indexOf b) := by
  refine ⟨fun g => ?_, ?_⟩
  · exact mem_uniqueList g _
  · exact pairwise_firstIdx_uniqueList _

end Audible
